import Mathlib

/-!
Verification development for the buffered ChaCha20 PRNG of `src/sgx-falcon/frng.c`
(seeding, generator-state initialization, keystream refill, buffered extraction).

Machine integers are modelled as `Nat` with explicit reduction modulo `2^32`
(for the 32-bit working words) and `2^64` (for the block counter), exactly at
the points where the C code truncates.  Byte buffers are `List Nat` of byte
values.  The main model corresponds to the `FALCON_LE_U` (little-endian host)
compile branch of `frng.c`; the big-endian branch is embedded separately for
the cross-endianness claims.
-/

/-- Modulus of a 32-bit word. -/
def M32 : Nat := 4294967296

/-- Modulus of a 64-bit word. -/
def M64 : Nat := 18446744073709551616

/-- Embedding of the C idiom `(x << n) | (x >> (32 - n))` on a `uint32_t`
value: rotate left by `n` (for `0 < n < 32`). -/
def rotl (x n : Nat) : Nat := ((x <<< n) % M32) ||| (x >>> (32 - n))

/-- Embedding of the `QROUND(a, b, c, d)` macro body of `refill_chacha20`
(frng.c lines 253-266): the ChaCha add-rotate-xor quarter round on the four
selected words, with rotation amounts 16, 12, 8, 7. -/
def qround (a b c d : Nat) : Nat × Nat × Nat × Nat :=
  let a := (a + b) % M32
  let d := d ^^^ a
  let d := rotl d 16
  let c := (c + d) % M32
  let b := b ^^^ c
  let b := rotl b 12
  let a := (a + b) % M32
  let d := d ^^^ a
  let d := rotl d 8
  let c := (c + d) % M32
  let b := b ^^^ c
  let b := rotl b 7
  (a, b, c, d)

/-- Apply one `QROUND(a, b, c, d)` invocation to the 16-word working state. -/
def applyQR (s : List Nat) (a b c d : Nat) : List Nat :=
  let r := qround (s.getD a 0) (s.getD b 0) (s.getD c 0) (s.getD d 0)
  (((s.set a r.1).set b r.2.1).set c r.2.2.1).set d r.2.2.2

/-- One iteration of the round loop of `refill_chacha20` (frng.c lines
268-275): the four column quarter rounds followed by the four diagonal
quarter rounds (one double round). -/
def doubleRound (s : List Nat) : List Nat :=
  applyQR (applyQR (applyQR (applyQR
    (applyQR (applyQR (applyQR (applyQR s 0 4 8 12) 1 5 9 13) 2 6 10 14) 3 7 11 15)
    0 5 10 15) 1 6 11 12) 2 7 8 13) 3 4 9 14

/-- The constant words `CW` of `refill_chacha20` (frng.c lines 230-232). -/
def CW : List Nat := [0x61707865, 0x3320646e, 0x79622d32, 0x6b206574]

/-- Loading of the 16-word working state for one block (frng.c lines
247-250): constants, then the 12 state words (8 key words and 4 IV words),
with the low and high 32-bit halves of the 64-bit counter `cc` XORed into
words 14 and 15. -/
def chachaInit (w : List Nat) (cc : Nat) : List Nat :=
  let s := CW ++ w
  let s := s.set 14 ((s.getD 14 0) ^^^ (cc % M32))
  s.set 15 ((s.getD 15 0) ^^^ ((cc >>> 32) % M32))

/-- The final feed-forward of one block (frng.c lines 281-290): add the
constants back into words 0-3, the state words back into words 4-13, and the
counter-XORed IV words back into words 14 and 15; every addition truncated to
32 bits. -/
def feedForward (w : List Nat) (cc : Nat) (s : List Nat) : List Nat :=
  (List.range 16).map (fun v =>
    if v < 4 then (s.getD v 0 + CW.getD v 0) % M32
    else if v < 14 then (s.getD v 0 + w.getD (v - 4) 0) % M32
    else if v = 14 then (s.getD v 0 + (w.getD 10 0 ^^^ (cc % M32))) % M32
    else (s.getD v 0 + (w.getD 11 0 ^^^ ((cc >>> 32) % M32))) % M32)

/-- Little-endian byte serialization of one 32-bit word: the effect of
`memcpy(p->buf.d + u, state, sizeof state)` on a little-endian host
(the `FALCON_LE_U` branch, frng.c lines 293-294). -/
def le32 (w : Nat) : List Nat :=
  [w % 256, w / 256 % 256, w / 65536 % 256, w / 16777216 % 256]

/-- Serialize the 16 result words of a block to their 64 output bytes. -/
def serialize : List Nat → List Nat
  | [] => []
  | w :: ws => le32 w ++ serialize ws

/-- One 64-byte ChaCha20 output block from the 12 state words `w` and the
64-bit counter `cc`: load the working state, apply the 10 double rounds, add
back the original input words, and serialize little-endian. -/
def chacha20_block (w : List Nat) (cc : Nat) : List Nat :=
  serialize (feedForward w cc (doubleRound^[10] (chachaInit w cc)))

/-- The block loop of `refill_chacha20` (frng.c lines 242-303) producing `n`
consecutive blocks: after each block the local counter `cc` is incremented by
one, wrapping modulo `2^64` (`cc` is a `uint64_t`).  Returns the final
counter value and the concatenated output bytes. -/
def chachaBlocks (w : List Nat) (cc : Nat) : Nat → Nat × List Nat
  | 0 => (cc, [])
  | n + 1 =>
    let blk := chacha20_block w cc
    let r := chachaBlocks w ((cc + 1) % M64) n
    (r.1, blk ++ r.2)

/-- Modelled from the spec: the `prng` structure of `internal.h`, which is
not among the provided sources.  Per the spec, `state.d` is 56 bytes laid out
as key (32 bytes = 8 words) then IV (16 bytes = 4 words) then the 64-bit
block counter, always accessed as little-endian words; it is modelled here as
the 12 32-bit words `stw` plus the 64-bit `counter`.  `buf.d` is the 512-byte
output buffer, `ptr` the read cursor, `type` the variant tag. -/
structure prng where
  stw : List Nat
  counter : Nat
  buf : List Nat
  ptr : Nat
  type : Nat
deriving DecidableEq

/-- Modelled from the spec: the `PRNG_CHACHA20` variant tag declared in the
missing `internal.h`; the only defined variant, a nonzero tag distinct from
the `0` default. -/
def PRNG_CHACHA20 : Nat := 1

/-- Embedding of `refill_chacha20` (frng.c lines 227-305): read the counter,
produce the 8 blocks filling the 512-byte buffer, and store the final counter
back.  The read cursor is not touched here (it is reset by the caller
`falcon_prng_refill`). -/
def refill_chacha20 (p : prng) : prng :=
  let r := chachaBlocks p.stw p.counter 8
  { p with buf := r.2, counter := r.1 }

/-- Embedding of `falcon_prng_refill` (frng.c lines 354-368): dispatch on the
variant tag, then reset the cursor to 0.  In the `USE_SGX` build modelled
here, the `default` branch's `assert(0)` is compiled out, so an unknown tag
falls through with no state change other than the cursor reset. -/
def falcon_prng_refill (p : prng) : prng :=
  let p1 := if p.type = PRNG_CHACHA20 then refill_chacha20 p else p
  { p1 with ptr := 0 }

/-- Modelled from the spec: the SHAKE-256 expander context (`shake_context`
and `shake_extract` are external to the provided sources).  Per the spec it
is an opaque extendable-output context whose only used operation extracts the
next `n` bytes of its output stream; modelled as a byte stream plus a
position. -/
structure shake_context where
  stream : Nat → Nat
  pos : Nat

/-- Modelled from the spec: extracting `n` bytes advances the position and
returns the corresponding stream bytes (reduced to byte range). -/
def shake_extract (src : shake_context) (n : Nat) : List Nat × shake_context :=
  ((List.range n).map (fun i => src.stream (src.pos + i) % 256),
   { src with pos := src.pos + n })

/-- Little-endian decoding of the 32-bit word at byte offset `i` of `b`. -/
def le32dec (b : List Nat) (i : Nat) : Nat :=
  b.getD i 0 + b.getD (i + 1) 0 * 256 + b.getD (i + 2) 0 * 65536 +
    b.getD (i + 3) 0 * 16777216

/-- Embedding of `falcon_prng_init` (frng.c lines 308-351), `FALCON_LE_U`
branch: resolve type 0 to `PRNG_CHACHA20`; for the ChaCha20 variant, extract
56 bytes from the expander into the state area (whose words are read
little-endian: the 12 key/IV words and the 64-bit counter), set the type, and
perform one refill, returning the resolved type; for any other type, return
0 with the instance and the expander untouched. -/
def falcon_prng_init (p : prng) (src : shake_context) (type : Nat) :
    prng × shake_context × Nat :=
  let t := if type = 0 then PRNG_CHACHA20 else type
  if t = PRNG_CHACHA20 then
    let e := shake_extract src 56
    let p1 : prng :=
      { p with stw := (List.range 12).map (fun i => le32dec e.1 (4 * i)),
               counter := le32dec e.1 48 + le32dec e.1 52 * M32,
               type := t }
    (falcon_prng_refill p1, e.2, t)
  else (p, src, 0)

/-- Embedding of the `while` loop of `falcon_prng_get_bytes` (frng.c lines
377-391), with an explicit iteration bound (first argument) so the function
is structurally recursive; `falcon_prng_get_bytes` supplies a bound that is
never reached (see `get_bytes_go_fuel`).  Each iteration copies
`clen = min (512 - ptr) len` bytes from the start of the buffer (the source
operand of the `memcpy` at line 384 is `p->buf.d`, offset 0, not
`p->buf.d + p->ptr`), advances the cursor by `clen`, and refills exactly when
the cursor reaches 512. -/
def get_bytes_go : Nat → prng → Nat → prng × List Nat
  | _, p, 0 => (p, [])
  | 0, p, _ + 1 => (p, [])
  | fuel + 1, p, len + 1 =>
    let clen := min (512 - p.ptr) (len + 1)
    let out := List.take clen p.buf
    let p1 : prng := { p with ptr := p.ptr + clen }
    let p2 : prng := if p1.ptr = 512 then falcon_prng_refill p1 else p1
    let r := get_bytes_go fuel p2 (len + 1 - clen)
    (r.1, out ++ r.2)

/-- Embedding of `falcon_prng_get_bytes` (frng.c lines 371-392): run the copy
loop; the iteration bound `len + 1` is sufficient for every state with
`ptr ≤ 512` (each iteration with `ptr < 512` delivers at least one byte, and
an initial `ptr = 512` iteration only refills). -/
def falcon_prng_get_bytes (p : prng) (len : Nat) : prng × List Nat :=
  get_bytes_go (len + 1) p len

/-- A concrete expander context: the all-zero byte stream. -/
def zeroSeed : shake_context := { stream := fun _ => 0, pos := 0 }

/-- A concrete uninitialized instance (all fields zeroed). -/
def p0 : prng := { stw := [], counter := 0, buf := [], ptr := 0, type := 0 }

/-- The instance obtained by a successful default-type initialization from
the all-zero expander (state all zero, first buffer filled). -/
def pInit : prng := (falcon_prng_init p0 zeroSeed 0).1

/-- A concrete instance carrying an unsupported variant tag (99) with a
stale buffer of 512 bytes of value 7. -/
def pBad : prng :=
  { stw := List.replicate 12 0, counter := 0, buf := List.replicate 512 7,
    ptr := 0, type := 99 }

/-- The cursor is reset to 0 by every refill, whatever the variant tag. -/
theorem refill_ptr (p : prng) : (falcon_prng_refill p).ptr = 0 := rfl

/-- C9: `get_bytes` with `len = 0` is a no-op: the loop body never runs, so
no refill happens and the instance (buffer contents, cursor, state words,
counter, tag) is returned unchanged with empty output. -/
theorem C9_get_bytes_zero_noop (p : prng) : falcon_prng_get_bytes p 0 = (p, []) := rfl

set_option maxRecDepth 1000000 in
/-- C1 (evidence of the code bug): on a correctly initialized instance,
after one 1-byte request the cursor is 1, yet the next 1-byte request
returns buffer byte 0 again — although buffer byte 0 and buffer byte 1
differ — because the copy in `falcon_prng_get_bytes` reads from the start of
the buffer instead of from the cursor. -/
theorem C1_get_bytes_not_from_cursor :
    ((falcon_prng_get_bytes pInit 1).1).ptr = 1 ∧
    (falcon_prng_get_bytes (falcon_prng_get_bytes pInit 1).1 1).2 =
      [pInit.buf.getD 0 0] ∧
    pInit.buf.getD 0 0 ≠ pInit.buf.getD 1 0 := by decide

set_option maxRecDepth 1000000 in
/-- C2 (evidence of the code bug): on one freshly initialized instance, two
successive 1-byte requests concatenated differ from one 2-byte request, so
identically seeded instances do not yield identical streams under different
request splits. -/
theorem C2_chunk_split_mismatch :
    (falcon_prng_get_bytes pInit 1).2 ++
      (falcon_prng_get_bytes (falcon_prng_get_bytes pInit 1).1 1).2 ≠
    (falcon_prng_get_bytes pInit 2).2 := by decide

set_option maxRecDepth 1000000 in
/-- C8 (evidence of the code bug): an instance whose variant tag is not
`PRNG_CHACHA20` still delivers output bytes: `falcon_prng_get_bytes` never
consults the tag and serves the stale buffer, both directly and after a
refill (which, with the process-abort check compiled out, only resets the
cursor). -/
theorem C8_invalid_state_still_outputs :
    (falcon_prng_get_bytes pBad 1).2 = [7] ∧
    (falcon_prng_get_bytes (falcon_prng_refill pBad) 3).2 = [7, 7, 7] := by decide

/-- Successful-branch characterization of `falcon_prng_init`: for type 0 or
the ChaCha20 tag, 56 bytes are drawn, the 14 little-endian words are stored
as the 12 state words and the 64-bit counter, the tag is set, one refill is
performed, and the resolved tag is returned. -/
theorem falcon_prng_init_ok (p : prng) (src : shake_context) (t : Nat)
    (ht : t = 0 ∨ t = PRNG_CHACHA20) :
    falcon_prng_init p src t =
      (falcon_prng_refill
        { p with
          stw := (List.range 12).map
                   (fun i => le32dec (shake_extract src 56).1 (4 * i)),
          counter := le32dec (shake_extract src 56).1 48 +
                       le32dec (shake_extract src 56).1 52 * M32,
          type := PRNG_CHACHA20 },
       (shake_extract src 56).2, PRNG_CHACHA20) := by
  rcases ht with h | h <;> subst h <;> rfl

/-- Failure-branch characterization of `falcon_prng_init`: any type other
than 0 and the ChaCha20 tag returns 0 and leaves the instance and the
expander untouched. -/
theorem falcon_prng_init_bad (p : prng) (src : shake_context) (t : Nat)
    (h0 : t ≠ 0) (hc : t ≠ PRNG_CHACHA20) :
    falcon_prng_init p src t = (p, src, 0) := by
  simp only [falcon_prng_init, if_neg h0, if_neg hc]

/-- One unfolding step of the copy loop on a positive request. -/
theorem get_bytes_go_succ (fuel : Nat) (p : prng) (len : Nat) :
    get_bytes_go (fuel + 1) p (len + 1) =
      ((get_bytes_go fuel
          (if p.ptr + min (512 - p.ptr) (len + 1) = 512
           then falcon_prng_refill { p with ptr := p.ptr + min (512 - p.ptr) (len + 1) }
           else { p with ptr := p.ptr + min (512 - p.ptr) (len + 1) })
          (len + 1 - min (512 - p.ptr) (len + 1))).1,
       List.take (min (512 - p.ptr) (len + 1)) p.buf ++
       (get_bytes_go fuel
          (if p.ptr + min (512 - p.ptr) (len + 1) = 512
           then falcon_prng_refill { p with ptr := p.ptr + min (512 - p.ptr) (len + 1) }
           else { p with ptr := p.ptr + min (512 - p.ptr) (len + 1) })
          (len + 1 - min (512 - p.ptr) (len + 1))).2) := rfl

/-- The copy loop keeps the cursor strictly below 512 when it starts
strictly below 512 and the iteration bound is at least the request. -/
theorem get_bytes_go_ptr_lt (fuel : Nat) :
    ∀ (p : prng) (len : Nat), p.ptr < 512 → len ≤ fuel →
      ((get_bytes_go fuel p len).1).ptr < 512 := by
  induction fuel with
  | zero =>
    intro p len hp hlen
    have h0 : len = 0 := by omega
    subst h0
    exact hp
  | succ f ih =>
    intro p len hp hlen
    match len with
    | 0 => exact hp
    | l + 1 =>
      rw [get_bytes_go_succ]
      dsimp only
      split
      next h512 =>
        exact ih _ _ (by rw [refill_ptr]; omega) (by omega)
      next h512 =>
        refine ih _ _ ?_ (by omega)
        show ({ p with ptr := p.ptr + min (512 - p.ptr) (l + 1) } : prng).ptr < 512
        dsimp only
        omega

/-- C10: the strict cursor invariant `0 ≤ ptr < 512` holds after every
successful initialization, after every refill, and after every `get_bytes`
call entered with the invariant: refill happens eagerly inside the copy loop
the moment the cursor reaches the end of the buffer, so no operation returns
with the cursor equal to the buffer length. -/
theorem C10_cursor_strict_invariant :
    (∀ (p : prng) (src : shake_context) (t : Nat),
        (falcon_prng_init p src t).2.2 ≠ 0 →
        ((falcon_prng_init p src t).1).ptr < 512) ∧
    (∀ p : prng, (falcon_prng_refill p).ptr < 512) ∧
    (∀ (p : prng) (len : Nat), p.ptr < 512 →
        ((falcon_prng_get_bytes p len).1).ptr < 512) := by
  refine ⟨?_, ?_, ?_⟩
  · intro p src t h
    by_cases h0 : t = 0
    · subst h0
      rw [falcon_prng_init_ok p src 0 (Or.inl rfl)]
      dsimp only
      rw [refill_ptr]; omega
    · by_cases hc : t = PRNG_CHACHA20
      · rw [falcon_prng_init_ok p src t (Or.inr hc)]
        dsimp only
        rw [refill_ptr]; omega
      · rw [falcon_prng_init_bad p src t h0 hc] at h
        exact absurd rfl h
  · intro p; rw [refill_ptr]; omega
  · intro p len hp
    exact get_bytes_go_ptr_lt (len + 1) p len hp (by omega)

set_option maxRecDepth 1000000 in
/-- Closed instantiation of `C10_cursor_strict_invariant`: a 600-byte
request on the concrete initialized instance (which straddles the buffer
boundary and forces a refill) returns with the cursor strictly below 512. -/
theorem C10_witness :
    ((falcon_prng_get_bytes pInit 600).1).ptr < 512 :=
  C10_cursor_strict_invariant.2.2 pInit 600 (by decide)

/-- Characterization of the block loop against the indexed description: from
a representable counter `cc`, producing `n` blocks yields the concatenation
of the blocks for counters `cc, cc+1, ..., cc+n-1` (each taken modulo
`2^64`) and leaves the counter at `cc + n` modulo `2^64`. -/
theorem chachaBlocks_eq (w : List Nat) :
    ∀ (n cc : Nat), cc < M64 →
      chachaBlocks w cc n =
        ((cc + n) % M64,
         (List.range n).flatMap (fun i => chacha20_block w ((cc + i) % M64))) := by
  intro n
  induction n with
  | zero =>
    intro cc hc
    simp [chachaBlocks, Nat.mod_eq_of_lt hc]
  | succ n ih =>
    intro cc hc
    have hlt : (cc + 1) % M64 < M64 := Nat.mod_lt _ (by decide)
    simp only [chachaBlocks]
    rw [ih ((cc + 1) % M64) hlt]
    simp only [Nat.mod_add_mod]
    rw [List.range_succ_eq_map, List.flatMap_cons, List.flatMap_map]
    have h1 : cc + 1 + n = cc + (n + 1) := by omega
    have h2 : (cc + 0) % M64 = cc := by simpa using Nat.mod_eq_of_lt hc
    have h3 : ∀ i : Nat, cc + 1 + i = cc + i.succ := fun i => by omega
    simp only [h1, h2, h3]

/-- A refill never changes the variant tag. -/
theorem refill_type (p : prng) : (falcon_prng_refill p).type = p.type := by
  simp only [falcon_prng_refill, refill_chacha20]
  split <;> rfl

/-- A refill never changes the state words. -/
theorem refill_stw (p : prng) : (falcon_prng_refill p).stw = p.stw := by
  simp only [falcon_prng_refill, refill_chacha20]
  split <;> rfl

/-- On a ChaCha20-tagged state with a representable counter, a refill
advances the counter by 8 modulo `2^64`. -/
theorem refill_counter (p : prng) (h : p.type = PRNG_CHACHA20)
    (hc : p.counter < M64) :
    (falcon_prng_refill p).counter = (p.counter + 8) % M64 := by
  simp only [falcon_prng_refill, refill_chacha20, if_pos h,
    chachaBlocks_eq p.stw 8 p.counter hc]

/-- C3: on a ChaCha20-tagged instance with a representable counter, one
`falcon_prng_refill` produces exactly the concatenation of the 8 consecutive
64-byte blocks for counters `c, c+1, ..., c+7` (`chacha20_block` performs the
16-word load with the counter halves XORed into the last two nonce words,
the 10 double rounds with rotations 16, 12, 8, 7, the feed-forward addition
of the original words, and little-endian serialization), leaves the
persistent counter at `c + 8` modulo `2^64`, resets the cursor to 0, and
changes nothing else. -/
theorem C3_refill_structure (p : prng) (h : p.type = PRNG_CHACHA20)
    (hc : p.counter < M64) :
    falcon_prng_refill p =
      { p with
        buf := (List.range 8).flatMap
                 (fun i => chacha20_block p.stw ((p.counter + i) % M64)),
        counter := (p.counter + 8) % M64,
        ptr := 0 } := by
  simp only [falcon_prng_refill, refill_chacha20, if_pos h,
    chachaBlocks_eq p.stw 8 p.counter hc]

set_option maxRecDepth 1000000 in
/-- Closed instantiation of `C3_refill_structure` at the concrete
initialized instance. -/
theorem C3_witness :
    falcon_prng_refill pInit =
      { pInit with
        buf := (List.range 8).flatMap
                 (fun i => chacha20_block pInit.stw ((pInit.counter + i) % M64)),
        counter := (pInit.counter + 8) % M64,
        ptr := 0 } :=
  C3_refill_structure pInit (by decide) (by decide)

/-- C4: on a ChaCha20-tagged instance with a representable initial counter
`c`, after `N` refills the counter equals `c + 8 * N` modulo `2^64`. -/
theorem C4_counter_monotone (p : prng) (N : Nat) (h : p.type = PRNG_CHACHA20)
    (hc : p.counter < M64) :
    (falcon_prng_refill^[N] p).counter = (p.counter + 8 * N) % M64 := by
  induction N generalizing p with
  | zero => simpa using (Nat.mod_eq_of_lt hc).symm
  | succ n ih =>
    rw [Function.iterate_succ_apply]
    rw [ih (falcon_prng_refill p) (by rw [refill_type]; exact h)
        (by rw [refill_counter p h hc]; exact Nat.mod_lt _ (by decide))]
    rw [refill_counter p h hc, Nat.mod_add_mod]
    congr 1
    omega

set_option maxRecDepth 1000000 in
/-- Closed instantiation of `C4_counter_monotone`: two refills of the
concrete initialized instance advance the counter by 16 modulo `2^64`. -/
theorem C4_witness :
    (falcon_prng_refill^[2] pInit).counter = (pInit.counter + 8 * 2) % M64 :=
  C4_counter_monotone pInit 2 (by decide) (by decide)

/-- C5: initialization with type 0 resolves to the ChaCha20 variant and
succeeds; for type 0 or the ChaCha20 tag it draws exactly 56 bytes from the
expander (the expander position advances by exactly 56), stores them as the
14 little-endian 32-bit words of the key-nonce-counter area, performs
exactly one refill, and returns the ChaCha20 tag; for any other type it
returns the error result 0 with the instance and the expander completely
untouched (no partial state). -/
theorem C5_init_contract (p : prng) (src : shake_context) (t : Nat) :
    (falcon_prng_init p src 0).2.2 = PRNG_CHACHA20 ∧
    (t = 0 ∨ t = PRNG_CHACHA20 →
      falcon_prng_init p src t =
        (falcon_prng_refill
          { p with
            stw := (List.range 12).map
                     (fun i => le32dec (shake_extract src 56).1 (4 * i)),
            counter := le32dec (shake_extract src 56).1 48 +
                         le32dec (shake_extract src 56).1 52 * M32,
            type := PRNG_CHACHA20 },
         { src with pos := src.pos + 56 }, PRNG_CHACHA20)) ∧
    (t ≠ 0 → t ≠ PRNG_CHACHA20 → falcon_prng_init p src t = (p, src, 0)) := by
  refine ⟨?_, ?_, ?_⟩
  · rw [falcon_prng_init_ok p src 0 (Or.inl rfl)]
  · intro h
    exact falcon_prng_init_ok p src t h
  · intro h0 hc
    exact falcon_prng_init_bad p src t h0 hc

/-- Closed instantiation of `C5_init_contract`: the default type succeeds on
the all-zero expander with the characterized state, and type 7 fails leaving
instance and expander untouched. -/
theorem C5_witness :
    falcon_prng_init p0 zeroSeed 0 =
      (falcon_prng_refill
        { p0 with
          stw := (List.range 12).map
                   (fun i => le32dec (shake_extract zeroSeed 56).1 (4 * i)),
          counter := le32dec (shake_extract zeroSeed 56).1 48 +
                       le32dec (shake_extract zeroSeed 56).1 52 * M32,
          type := PRNG_CHACHA20 },
       { zeroSeed with pos := zeroSeed.pos + 56 }, PRNG_CHACHA20) ∧
    falcon_prng_init p0 zeroSeed 7 = (p0, zeroSeed, 0) :=
  ⟨(C5_init_contract p0 zeroSeed 0).2.1 (Or.inl rfl),
   (C5_init_contract p0 zeroSeed 7).2.2 (by decide) (by decide)⟩

/-- Result of one `read` call on the urandom device, as seen by the retry
loop of `urandom_get_seed` (frng.c lines 142-154): some bytes delivered
(`rlen >= 0`), an interrupted call (`rlen < 0` with `errno == EINTR`), or
any other I/O failure (`rlen < 0`, other `errno`). -/
inductive readResult where
  | ok (bs : List Nat)
  | eintr
  | err
deriving DecidableEq

/-- Environment of one `urandom_get_seed` call: whether `open` of the
urandom device succeeds, and the trace of successive `read` results. -/
structure urandomEnv where
  openOk : Bool
  reads : List readResult
deriving DecidableEq

/-- Embedding of the `while (len > 0)` read loop of `urandom_get_seed`
(frng.c lines 142-154) over a trace of read results: deliverable bytes are
appended and subtracted from the remaining length, an interrupted call is
retried, any other failure breaks out; an exhausted trace with bytes still
missing also ends the loop.  Returns the bytes written and the remaining
(undelivered) length. -/
def urandom_loop : List readResult → Nat → List Nat → List Nat × Nat
  | _, 0, acc => (acc, 0)
  | [], len, acc => (acc, len)
  | readResult.ok bs :: rest, len, acc => urandom_loop rest (len - bs.length) (acc ++ bs)
  | readResult.eintr :: rest, len, acc => urandom_loop rest len acc
  | readResult.err :: _, len, acc => (acc, len)

/-- Embedding of `urandom_get_seed` (frng.c lines 131-161): a zero-length
request succeeds immediately; otherwise, if the device opens, run the read
loop and report success exactly when the remaining length reached 0,
together with the bytes written into the caller buffer. -/
def urandom_get_seed (env : urandomEnv) (len : Nat) : Bool × List Nat :=
  if len = 0 then (true, [])
  else if env.openOk then
    let r := urandom_loop env.reads len []
    (r.2 == 0, r.1)
  else (false, [])

/-- Total number of bytes the trace delivers before its first hard failure
(interrupted calls contribute nothing and are skipped). -/
def okTotal : List readResult → Nat
  | [] => 0
  | readResult.ok bs :: r => bs.length + okTotal r
  | readResult.eintr :: r => okTotal r
  | readResult.err :: _ => 0

/-- Well-formedness of a read trace for an initial request of `len` bytes:
each successful read returns at most the number of bytes still requested
(the POSIX contract of `read(f, seed, len)`); events after a hard failure
are unconstrained since the loop has exited. -/
def readsOkLen : List readResult → Nat → Bool
  | [], _ => true
  | readResult.ok bs :: r, len => decide (bs.length ≤ len) && readsOkLen r (len - bs.length)
  | readResult.eintr :: r, len => readsOkLen r len
  | readResult.err :: _, _ => true

/-- Environment of one `falcon_get_seed` call: which entropy sources are
compiled in (`USE_URANDOM`, `USE_WIN32_RAND`, `USE_SGX`), the urandom trace,
and the results of the two external platform RNG services.  Modelled from
the spec: `CryptGenRandom` and `sgx_read_rand` are external services with a
fill contract — on success they fill the first `len` bytes of the caller
buffer, on failure they deliver nothing. -/
structure seedEnv where
  cfg_urandom : Bool
  cfg_win32 : Bool
  cfg_sgx : Bool
  uenv : urandomEnv
  win32Result : Option (List Nat)
  sgxResult : Option (List Nat)
deriving DecidableEq

/-- Writing `bs` at offset 0 of the caller buffer `dst`. -/
def overlayBytes (dst bs : List Nat) : List Nat := bs ++ dst.drop bs.length

/-- Embedding of `falcon_get_seed` (frng.c lines 193-214): try each
compiled-in source in the fixed order urandom, Win32 RNG, SGX RNG,
returning success as soon as one source succeeds; each attempted source
writes its (possibly partial) bytes into the caller buffer, and a later
successful source overwrites from offset 0. -/
def falcon_get_seed (env : seedEnv) (dst : List Nat) (len : Nat) :
    Bool × List Nat :=
  let u := if env.cfg_urandom then
             let r := urandom_get_seed env.uenv len
             (r.1, overlayBytes dst r.2)
           else (false, dst)
  if u.1 then (true, u.2) else
  let w := if env.cfg_win32 then
             match env.win32Result with
             | some bs => (true, overlayBytes u.2 bs)
             | none => (false, u.2)
           else (false, u.2)
  if w.1 then (true, w.2) else
  let s := if env.cfg_sgx then
             match env.sgxResult with
             | some bs => (true, overlayBytes w.2 bs)
             | none => (false, w.2)
           else (false, w.2)
  if s.1 then (true, s.2) else (false, s.2)

/-- The read loop ends with remaining length 0 exactly when the trace
delivers at least the requested length before its first hard failure. -/
theorem urandom_loop_success (evs : List readResult) :
    ∀ (len : Nat) (acc : List Nat),
      (urandom_loop evs len acc).2 = 0 ↔ len ≤ okTotal evs := by
  induction evs with
  | nil =>
    intro len acc
    cases len with
    | zero => simp [urandom_loop, okTotal]
    | succ n => simp [urandom_loop, okTotal]
  | cons e rest ih =>
    intro len acc
    cases len with
    | zero => simp [urandom_loop]
    | succ n =>
      cases e with
      | ok bs =>
        have hstep : urandom_loop (readResult.ok bs :: rest) (n + 1) acc =
            urandom_loop rest (n + 1 - bs.length) (acc ++ bs) := rfl
        rw [hstep, ih]
        simp only [okTotal]
        omega
      | eintr =>
        have hstep : urandom_loop (readResult.eintr :: rest) (n + 1) acc =
            urandom_loop rest (n + 1) acc := rfl
        rw [hstep, ih]
        simp [okTotal]
      | err =>
        simp [urandom_loop, okTotal]

/-- On a well-formed trace, bytes written plus bytes still missing equal
the bytes initially requested (plus what was already accumulated). -/
theorem urandom_loop_length (evs : List readResult) :
    ∀ (len : Nat) (acc : List Nat), readsOkLen evs len = true →
      ((urandom_loop evs len acc).1).length + (urandom_loop evs len acc).2 =
        acc.length + len := by
  induction evs with
  | nil =>
    intro len acc _
    cases len with
    | zero => simp [urandom_loop]
    | succ n => simp [urandom_loop]
  | cons e rest ih =>
    intro len acc hwf
    cases len with
    | zero => simp [urandom_loop]
    | succ n =>
      cases e with
      | ok bs =>
        have hstep : urandom_loop (readResult.ok bs :: rest) (n + 1) acc =
            urandom_loop rest (n + 1 - bs.length) (acc ++ bs) := rfl
        simp only [readsOkLen, Bool.and_eq_true, decide_eq_true_eq] at hwf
        rw [hstep, ih (n + 1 - bs.length) (acc ++ bs) hwf.2]
        simp only [List.length_append]
        omega
      | eintr =>
        have hstep : urandom_loop (readResult.eintr :: rest) (n + 1) acc =
            urandom_loop rest (n + 1) acc := rfl
        exact hstep ▸ ih (n + 1) acc hwf
      | err =>
        simp [urandom_loop]

/-- Success characterization of `urandom_get_seed`: it succeeds exactly for
a zero-length request, or when the device opens and the trace delivers the
full requested length (interrupted calls retried, partial reads continued,
any other failure abandons the source). -/
theorem urandom_success_iff (uenv : urandomEnv) (len : Nat) :
    (urandom_get_seed uenv len).1 = true ↔
      (len = 0 ∨ (uenv.openOk = true ∧ len ≤ okTotal uenv.reads)) := by
  unfold urandom_get_seed
  by_cases h0 : len = 0
  · subst h0; simp
  · rw [if_neg h0]
    by_cases ho : uenv.openOk = true
    · rw [if_pos ho]
      simp only [beq_iff_eq]
      rw [urandom_loop_success]
      simp [h0, ho]
    · simp [Bool.not_eq_true] at ho
      simp [ho, h0]

/-- On a well-formed trace, a successful `urandom_get_seed` writes exactly
the requested number of bytes, and a failed one writes at most that many. -/
theorem urandom_bytes_length (uenv : urandomEnv) (len : Nat)
    (hwf : readsOkLen uenv.reads len = true) :
    ((urandom_get_seed uenv len).1 = true →
      ((urandom_get_seed uenv len).2).length = len) ∧
    ((urandom_get_seed uenv len).2).length ≤ len := by
  unfold urandom_get_seed
  by_cases h0 : len = 0
  · subst h0; simp
  · rw [if_neg h0]
    by_cases ho : uenv.openOk = true
    · rw [if_pos ho]
      dsimp only
      have hl := urandom_loop_length uenv.reads len [] hwf
      simp only [List.length_nil, Nat.zero_add] at hl
      constructor
      · intro hs
        simp only [beq_iff_eq] at hs
        omega
      · omega
    · simp [Bool.not_eq_true] at ho
      simp [ho]

/-- Overwriting a buffer completely yields exactly the written bytes. -/
theorem overlayBytes_full (dst bs : List Nat) (h : dst.length ≤ bs.length) :
    overlayBytes dst bs = bs := by
  unfold overlayBytes
  rw [List.drop_eq_nil_of_le h, List.append_nil]

/-- Length of an overlaid buffer. -/
theorem overlayBytes_length (dst bs : List Nat) :
    (overlayBytes dst bs).length = bs.length + (dst.length - bs.length) := by
  simp [overlayBytes]

/-- C6: the seeder tries the compiled-in sources in the fixed order urandom,
Win32 RNG, SGX RNG; it succeeds exactly when some compiled-in source
delivers the full requested length; the urandom source succeeds exactly when
its trace delivers the full length (interrupted calls retried, partial reads
continued, other failures abandon it); a failed urandom followed by a
successful Win32 source reports exactly the Win32 bytes, not the failed
partial output; a zero-length request trivially succeeds when the urandom
source is compiled in; and on a well-formed environment the delivered buffer
always holds exactly the requested number of bytes, so success is never
reported with fewer. -/
theorem C6_seeder_contract (env : seedEnv) (dst : List Nat) (len : Nat) :
    ((falcon_get_seed env dst len).1 = true ↔
       (env.cfg_urandom = true ∧ (urandom_get_seed env.uenv len).1 = true) ∨
       (env.cfg_win32 = true ∧ env.win32Result.isSome = true) ∨
       (env.cfg_sgx = true ∧ env.sgxResult.isSome = true)) ∧
    ((urandom_get_seed env.uenv len).1 = true ↔
       (len = 0 ∨ (env.uenv.openOk = true ∧ len ≤ okTotal env.uenv.reads))) ∧
    (∀ bs : List Nat, (urandom_get_seed env.uenv len).1 = false →
       env.cfg_win32 = true → env.win32Result = some bs → bs.length = len →
       dst.length = len → readsOkLen env.uenv.reads len = true →
       (falcon_get_seed env dst len).1 = true ∧
       (falcon_get_seed env dst len).2 = bs) ∧
    (env.cfg_urandom = true → len = 0 →
       (falcon_get_seed env dst len).1 = true) ∧
    (dst.length = len → readsOkLen env.uenv.reads len = true →
       (∀ bs, env.win32Result = some bs → bs.length = len) →
       (∀ bs, env.sgxResult = some bs → bs.length = len) →
       ((falcon_get_seed env dst len).2).length = len) := by
  refine ⟨?_, urandom_success_iff env.uenv len, ?_, ?_, ?_⟩
  · rcases hw : env.win32Result with _ | bs2 <;>
    rcases hs : env.sgxResult with _ | bs3 <;>
    by_cases h1 : env.cfg_urandom = true <;>
    by_cases h2 : (urandom_get_seed env.uenv len).1 = true <;>
    by_cases h3 : env.cfg_win32 = true <;>
    by_cases h4 : env.cfg_sgx = true <;>
    simp [falcon_get_seed, h1, h2, h3, h4, hw, hs, Bool.not_eq_true] at *
  · intro bs hufail hw hwbs hbl hdl hwf
    by_cases hu : env.cfg_urandom = true
    · have hul := (urandom_bytes_length env.uenv len hwf).2
      have hfull : overlayBytes (overlayBytes dst (urandom_get_seed env.uenv len).2) bs = bs := by
        apply overlayBytes_full
        rw [overlayBytes_length]
        omega
      simp [falcon_get_seed, hu, hufail, hw, hwbs, hfull]
    · simp only [Bool.not_eq_true] at hu
      have hfull : overlayBytes dst bs = bs := by
        apply overlayBytes_full
        omega
      simp [falcon_get_seed, hu, hw, hwbs, hfull]
  · intro hu h0
    subst h0
    simp [falcon_get_seed, hu, urandom_get_seed]
  · intro hdl hwf hwl hsl
    have hul := (urandom_bytes_length env.uenv len hwf).2
    rcases hw : env.win32Result with _ | bs2 <;>
    rcases hs : env.sgxResult with _ | bs3 <;>
    by_cases h1 : env.cfg_urandom = true <;>
    by_cases h2 : (urandom_get_seed env.uenv len).1 = true <;>
    by_cases h3 : env.cfg_win32 = true <;>
    by_cases h4 : env.cfg_sgx = true <;>
    simp [falcon_get_seed, h1, h2, h3, h4, hw, hs, Bool.not_eq_true,
      overlayBytes_length] at * <;>
    omega

/-- A concrete seeding environment: only the urandom source is compiled in;
the device opens, and the trace delivers 3 bytes across an interrupted call
and two partial reads. -/
def envW : seedEnv :=
  { cfg_urandom := true, cfg_win32 := false, cfg_sgx := false,
    uenv := { openOk := true,
              reads := [readResult.eintr, readResult.ok [3],
                        readResult.ok [4, 5]] },
    win32Result := none, sgxResult := none }

/-- Closed instantiation of `C6_seeder_contract`: in the concrete
environment, a 3-byte request succeeds and the delivered buffer holds
exactly 3 bytes. -/
theorem C6_witness :
    (falcon_get_seed envW [9, 9, 9] 3).1 = true ∧
    ((falcon_get_seed envW [9, 9, 9] 3).2).length = 3 :=
  ⟨(C6_seeder_contract envW [9, 9, 9] 3).1.mpr (Or.inl ⟨rfl, by decide⟩),
   (C6_seeder_contract envW [9, 9, 9] 3).2.2.2.2 (by decide) (by decide)
     (fun bs h => Option.noConfusion h) (fun bs h => Option.noConfusion h)⟩

/-- Byte serialization of one 32-bit word as performed by the explicit byte
loop of `refill_chacha20` on a big-endian host (frng.c lines 296-301): each
assignment of a shifted word to an `unsigned char` truncates modulo 256. -/
def le32sh (w : Nat) : List Nat :=
  [w % 256, (w >>> 8) % 256, (w >>> 16) % 256, (w >>> 24) % 256]

/-- Big-endian-host serialization of the 16 result words of a block. -/
def serialize_be : List Nat → List Nat
  | [] => []
  | w :: ws => le32sh w ++ serialize_be ws

/-- One ChaCha20 block in the big-endian compile branch. -/
def chacha20_block_be (w : List Nat) (cc : Nat) : List Nat :=
  serialize_be (feedForward w cc (doubleRound^[10] (chachaInit w cc)))

/-- The block loop of `refill_chacha20` in the big-endian compile branch. -/
def chachaBlocks_be (w : List Nat) (cc : Nat) : Nat → Nat × List Nat
  | 0 => (cc, [])
  | n + 1 =>
    let blk := chacha20_block_be w cc
    let r := chachaBlocks_be w ((cc + 1) % M64) n
    (r.1, blk ++ r.2)

/-- `refill_chacha20` in the big-endian compile branch. -/
def refill_chacha20_be (p : prng) : prng :=
  let r := chachaBlocks_be p.stw p.counter 8
  { p with buf := r.2, counter := r.1 }

/-- `falcon_prng_refill` in the big-endian compile branch. -/
def falcon_prng_refill_be (p : prng) : prng :=
  let p1 := if p.type = PRNG_CHACHA20 then refill_chacha20_be p else p
  { p1 with ptr := 0 }

/-- Word assembly of the big-endian branch of `falcon_prng_init` (frng.c
lines 330-338): word `i` is built from four extracted bytes with left
shifts and bitwise ors. -/
def be_word (tmp : List Nat) (i : Nat) : Nat :=
  tmp.getD (4 * i) 0 ||| (tmp.getD (4 * i + 1) 0 <<< 8) |||
    (tmp.getD (4 * i + 2) 0 <<< 16) ||| (tmp.getD (4 * i + 3) 0 <<< 24)

/-- Embedding of `falcon_prng_init` in the big-endian compile branch (frng.c
lines 319-342): the 14 words are assembled from the extracted bytes in
little-endian order, the counter is stored as `tl + (th << 32)`, and the
refill uses the explicit little-endian byte serialization. -/
def falcon_prng_init_be (p : prng) (src : shake_context) (type : Nat) :
    prng × shake_context × Nat :=
  let t := if type = 0 then PRNG_CHACHA20 else type
  if t = PRNG_CHACHA20 then
    let e := shake_extract src 56
    let p1 : prng :=
      { p with stw := (List.range 12).map (fun i => be_word e.1 i),
               counter := be_word e.1 12 + (be_word e.1 13 <<< 32),
               type := t }
    (falcon_prng_refill_be p1, e.2, t)
  else (p, src, 0)

/-- The copy loop of `falcon_prng_get_bytes` as compiled on a big-endian
host (identical code; its refills use the big-endian serialization). -/
def get_bytes_go_be : Nat → prng → Nat → prng × List Nat
  | _, p, 0 => (p, [])
  | 0, p, _ + 1 => (p, [])
  | fuel + 1, p, len + 1 =>
    let clen := min (512 - p.ptr) (len + 1)
    let out := List.take clen p.buf
    let p1 : prng := { p with ptr := p.ptr + clen }
    let p2 : prng := if p1.ptr = 512 then falcon_prng_refill_be p1 else p1
    let r := get_bytes_go_be fuel p2 (len + 1 - clen)
    (r.1, out ++ r.2)

/-- `falcon_prng_get_bytes` as compiled on a big-endian host. -/
def falcon_prng_get_bytes_be (p : prng) (len : Nat) : prng × List Nat :=
  get_bytes_go_be (len + 1) p len

/-- Bitwise or of disjoint summands is addition: a value below `2^k` ored
with a value shifted left by `k`. -/
theorem lor_shiftLeft_eq_add (k a b : Nat) (h : a < 2 ^ k) :
    a ||| b <<< k = a + b <<< k := by
  apply Nat.eq_of_testBit_eq
  intro i
  rw [Nat.testBit_lor, Nat.testBit_shiftLeft]
  by_cases hik : k ≤ i
  · have ha : a.testBit i = false :=
      Nat.testBit_lt_two_pow
        (lt_of_lt_of_le h (Nat.pow_le_pow_right (by norm_num) hik))
    have hd : (decide (i ≥ k)) = true := decide_eq_true hik
    rw [ha, hd, Bool.false_or, Bool.true_and,
      Nat.testBit_to_div_mod, Nat.testBit_to_div_mod, Nat.shiftLeft_eq]
    have h2 : (2 : Nat) ^ i = 2 ^ k * 2 ^ (i - k) := by
      rw [← pow_add]
      congr 1
      omega
    have h4 : (a + b * 2 ^ k) / 2 ^ k = b := by
      rw [Nat.mul_comm b, Nat.add_mul_div_left a b (Nat.pow_pos (by norm_num)),
        Nat.div_eq_of_lt h, Nat.zero_add]
    have h3 : (a + b * 2 ^ k) / 2 ^ i = b / 2 ^ (i - k) := by
      rw [h2, ← Nat.div_div_eq_div_mul, h4]
    rw [h3]
  · have hd : (decide (i ≥ k)) = false := decide_eq_false hik
    rw [hd, Bool.false_and, Bool.or_false,
      Nat.testBit_to_div_mod, Nat.testBit_to_div_mod, Nat.shiftLeft_eq]
    have h2 : b * 2 ^ k = 2 ^ i * (b * 2 ^ (k - i)) := by
      have : (2 : Nat) ^ k = 2 ^ i * 2 ^ (k - i) := by
        rw [← pow_add]
        congr 1
        omega
      rw [this]
      ring
    rw [h2, Nat.add_mul_div_left a _ (Nat.pow_pos (by norm_num))]
    have h4 : b * 2 ^ (k - i) = (b * 2 ^ (k - i - 1)) * 2 := by
      have : (2 : Nat) ^ (k - i) = 2 ^ (k - i - 1) * 2 := by
        rw [← pow_succ]
        congr 1
        omega
      rw [this]
      ring
    rw [h4]
    have h5 : (a / 2 ^ i + (b * 2 ^ (k - i - 1)) * 2) % 2 = a / 2 ^ i % 2 := by
      omega
    rw [h5]

/-- Any position of a list of bytes below 256 reads below 256 (the default
value 0 included). -/
theorem getD_lt_256 (l : List Nat) (h : ∀ x ∈ l, x < 256) :
    ∀ j, l.getD j 0 < 256 := by
  intro j
  induction l generalizing j with
  | nil => simp [List.getD]
  | cons a t ih =>
    cases j with
    | zero => simpa using h a (by simp)
    | succ n =>
      have hstep : (a :: t).getD (n + 1) 0 = t.getD n 0 := rfl
      rw [hstep]
      exact ih (fun x hx => h x (by simp [hx])) n

/-- Every byte produced by the expander model is below 256. -/
theorem shake_extract_bytes_lt (src : shake_context) (n : Nat) :
    ∀ x ∈ (shake_extract src n).1, x < 256 := by
  intro x hx
  simp only [shake_extract, List.mem_map, List.mem_range] at hx
  obtain ⟨i, _, rfl⟩ := hx
  exact Nat.mod_lt _ (by norm_num)

/-- On byte values, the big-endian branch's shift-and-or word assembly
agrees with little-endian decoding. -/
theorem be_word_eq (tmp : List Nat) (hb : ∀ j, tmp.getD j 0 < 256) (i : Nat) :
    be_word tmp i = le32dec tmp (4 * i) := by
  unfold be_word le32dec
  have h0 := hb (4 * i)
  have h1 := hb (4 * i + 1)
  have h2 := hb (4 * i + 2)
  have h3 := hb (4 * i + 3)
  have e8 : (2 : Nat) ^ 8 = 256 := by norm_num
  have e16 : (2 : Nat) ^ 16 = 65536 := by norm_num
  have e24 : (2 : Nat) ^ 24 = 16777216 := by norm_num
  rw [lor_shiftLeft_eq_add 8 _ _ (by rw [e8]; omega)]
  rw [lor_shiftLeft_eq_add 16 _ _ (by rw [Nat.shiftLeft_eq, e8, e16]; omega)]
  rw [lor_shiftLeft_eq_add 24 _ _
    (by rw [Nat.shiftLeft_eq, Nat.shiftLeft_eq, e8, e16, e24]; omega)]
  rw [Nat.shiftLeft_eq, Nat.shiftLeft_eq, Nat.shiftLeft_eq]

/-- The big-endian byte loop serializes a word exactly as the little-endian
host `memcpy` does. -/
theorem le32sh_eq (w : Nat) : le32sh w = le32 w := by
  simp [le32sh, le32, Nat.shiftRight_eq_div_pow]

/-- Both serializations of a word list agree. -/
theorem serialize_be_eq : ∀ s, serialize_be s = serialize s
  | [] => rfl
  | w :: ws => by
    simp only [serialize_be, serialize, le32sh_eq, serialize_be_eq ws]

/-- Both compile branches compute the same block bytes. -/
theorem chacha20_block_be_eq (w : List Nat) (cc : Nat) :
    chacha20_block_be w cc = chacha20_block w cc := by
  unfold chacha20_block_be chacha20_block
  rw [serialize_be_eq]

/-- Both compile branches run the block loop identically. -/
theorem chachaBlocks_be_eq (w : List Nat) :
    ∀ (n cc : Nat), chachaBlocks_be w cc n = chachaBlocks w cc n := by
  intro n
  induction n with
  | zero => intro cc; rfl
  | succ k ih =>
    intro cc
    simp only [chachaBlocks_be, chachaBlocks, chacha20_block_be_eq, ih]

/-- Both compile branches refill identically. -/
theorem falcon_prng_refill_be_eq (p : prng) :
    falcon_prng_refill_be p = falcon_prng_refill p := by
  simp only [falcon_prng_refill_be, falcon_prng_refill, refill_chacha20_be,
    refill_chacha20, chachaBlocks_be_eq]

/-- One unfolding step of the big-endian copy loop on a positive request. -/
theorem get_bytes_go_be_succ (fuel : Nat) (p : prng) (len : Nat) :
    get_bytes_go_be (fuel + 1) p (len + 1) =
      ((get_bytes_go_be fuel
          (if p.ptr + min (512 - p.ptr) (len + 1) = 512
           then falcon_prng_refill_be { p with ptr := p.ptr + min (512 - p.ptr) (len + 1) }
           else { p with ptr := p.ptr + min (512 - p.ptr) (len + 1) })
          (len + 1 - min (512 - p.ptr) (len + 1))).1,
       List.take (min (512 - p.ptr) (len + 1)) p.buf ++
       (get_bytes_go_be fuel
          (if p.ptr + min (512 - p.ptr) (len + 1) = 512
           then falcon_prng_refill_be { p with ptr := p.ptr + min (512 - p.ptr) (len + 1) }
           else { p with ptr := p.ptr + min (512 - p.ptr) (len + 1) })
          (len + 1 - min (512 - p.ptr) (len + 1))).2) := rfl

/-- Both compile branches run the copy loop identically. -/
theorem get_bytes_go_be_eq :
    ∀ (fuel : Nat) (p : prng) (len : Nat),
      get_bytes_go_be fuel p len = get_bytes_go fuel p len := by
  intro fuel
  induction fuel with
  | zero =>
    intro p len
    cases len with
    | zero => rfl
    | succ l => rfl
  | succ f ih =>
    intro p len
    cases len with
    | zero => rfl
    | succ l =>
      rw [get_bytes_go_be_succ, get_bytes_go_succ, falcon_prng_refill_be_eq,
        ih]

/-- Successful-branch characterization of the big-endian initialization. -/
theorem falcon_prng_init_be_ok (p : prng) (src : shake_context) (t : Nat)
    (ht : t = 0 ∨ t = PRNG_CHACHA20) :
    falcon_prng_init_be p src t =
      (falcon_prng_refill_be
        { p with
          stw := (List.range 12).map (fun i => be_word (shake_extract src 56).1 i),
          counter := be_word (shake_extract src 56).1 12 +
                       (be_word (shake_extract src 56).1 13 <<< 32),
          type := PRNG_CHACHA20 },
       (shake_extract src 56).2, PRNG_CHACHA20) := by
  rcases ht with h | h <;> subst h <;> rfl

/-- Failure-branch characterization of the big-endian initialization. -/
theorem falcon_prng_init_be_bad (p : prng) (src : shake_context) (t : Nat)
    (h0 : t ≠ 0) (hc : t ≠ PRNG_CHACHA20) :
    falcon_prng_init_be p src t = (p, src, 0) := by
  simp only [falcon_prng_init_be, if_neg h0, if_neg hc]

/-- Both compile branches initialize identically: the assembled words and
the stored counter agree, and the first refill produces the same bytes. -/
theorem falcon_prng_init_be_eq (p : prng) (src : shake_context) (t : Nat) :
    falcon_prng_init_be p src t = falcon_prng_init p src t := by
  by_cases ht : t = 0 ∨ t = PRNG_CHACHA20
  · rw [falcon_prng_init_be_ok p src t ht, falcon_prng_init_ok p src t ht]
    have hb : ∀ j, (shake_extract src 56).1.getD j 0 < 256 :=
      getD_lt_256 _ (shake_extract_bytes_lt src 56)
    have hw : (List.range 12).map (fun i => be_word (shake_extract src 56).1 i) =
        (List.range 12).map (fun i => le32dec (shake_extract src 56).1 (4 * i)) :=
      List.map_congr_left (fun i _ => be_word_eq _ hb i)
    have hcnt : be_word (shake_extract src 56).1 12 +
          (be_word (shake_extract src 56).1 13 <<< 32) =
        le32dec (shake_extract src 56).1 48 +
          le32dec (shake_extract src 56).1 52 * M32 := by
      rw [be_word_eq _ hb 12, be_word_eq _ hb 13, Nat.shiftLeft_eq]
      norm_num [M32]
    rw [hw, hcnt, falcon_prng_refill_be_eq]
  · push_neg at ht
    rw [falcon_prng_init_be_bad p src t ht.1 ht.2,
      falcon_prng_init_bad p src t ht.1 ht.2]

/-- C7: for every expander state, initialization, refill, and byte
extraction compute identical results in the little-endian and big-endian
compile branches of frng.c, so a fixed 56-byte expanded state yields
byte-identical output on every host byte order (and, the model being purely
functional, identical output on every run). -/
theorem C7_cross_endian_identical :
    (∀ (p : prng) (src : shake_context) (t : Nat),
       falcon_prng_init_be p src t = falcon_prng_init p src t) ∧
    (∀ q : prng, falcon_prng_refill_be q = falcon_prng_refill q) ∧
    (∀ (q : prng) (len : Nat),
       falcon_prng_get_bytes_be q len = falcon_prng_get_bytes q len) :=
  ⟨falcon_prng_init_be_eq, falcon_prng_refill_be_eq, fun q len => by
     unfold falcon_prng_get_bytes_be falcon_prng_get_bytes
     rw [get_bytes_go_be_eq]⟩
